import Mathlib

/-!
Formal model of the `uws-client` repository: a client for the IVOA
Universal Worker Service (UWS) protocol specialized for SODA cutout jobs.

The model is a shallow embedding of the Python sources:
  * `models.py`    — the `UWSPhase` enumeration;
  * `uwsclient.py` — the standalone `UWSClient` (XML parsing, job creation,
                     the poll loop `wait_for_job_completion`);
  * `uws.py`       — the abstract `UWSClient` base (its own `create_job`,
                     parser and `download_result`);
  * `client.py`    — the `SODAClient` and the `async_cutout` orchestration.

HTTP traffic is modelled by explicit response values, the event-loop clock by
a discrete clock that advances by `poll_interval` at each `asyncio.sleep`,
and the unbounded `while True` loops by fuel-indexed recursion.
-/

namespace UWS

/-- Python exceptions raised by the client code that the model distinguishes. -/
inductive PyError where
  | valueError (arg : Option String)
  | timeoutError (job_id : String) (timeout : Nat)
deriving DecidableEq, Repr

/-- Phase enumeration from `models.py` (`UWSPhase`).  Exactly these eight
literal string values are members of the Python `Enum`. -/
inductive UWSPhase where
  | PENDING
  | QUEUED
  | EXECUTING
  | COMPLETED
  | ERROR
  | ABORTED
  | UNKNOWN
  | HELD
deriving DecidableEq, Repr

/-- Value lookup performed by the Python enum call `UWSPhase(s)` on a string:
it succeeds exactly on the eight member values of `models.py`. -/
def UWSPhase.ofString (s : String) : Option UWSPhase :=
  if s = "PENDING" then some .PENDING
  else if s = "QUEUED" then some .QUEUED
  else if s = "EXECUTING" then some .EXECUTING
  else if s = "COMPLETED" then some .COMPLETED
  else if s = "ERROR" then some .ERROR
  else if s = "ABORTED" then some .ABORTED
  else if s = "UNKNOWN" then some .UNKNOWN
  else if s = "HELD" then some .HELD
  else none

/-- The Python call `UWSPhase(v)` where `v` is the value read out of the
status dictionary (possibly `None`): any argument that is not one of the
eight member values raises `ValueError`. -/
def phaseOf (v : Option String) : Except PyError UWSPhase :=
  match v with
  | none => .error (.valueError none)
  | some s =>
    match UWSPhase.ofString s with
    | some p => .ok p
    | none => .error (.valueError (some s))

/-- One entry of the parsed `results` list (`_parse_uws_response`):
attribute lookups on the XML element may each be absent. -/
structure ResultInfo where
  id : Option String
  href : Option String
  mime_type : Option String
deriving DecidableEq, Repr

/-- The dictionary produced by `_parse_uws_response` in `uwsclient.py`.
Every scalar key is always present (possibly mapped to `None`); `results`
defaults to the empty list when the XML has no `results` block. -/
structure JobStatus where
  job_id : Option String
  phase : Option String
  run_id : Option String
  owner_id : Option String
  creation_time : Option String
  start_time : Option String
  end_time : Option String
  execution_duration : Option String
  destruction : Option String
  results : List ResultInfo
deriving DecidableEq, Repr

/-- Translation of `status.get("phase", "UNKNOWN")` in
`wait_for_job_completion`: the parser stores the `"phase"` key
unconditionally (possibly as `None`), so Python `.get` returns the stored
value and the `"UNKNOWN"` default argument is unreachable. -/
def getPhaseField (status : JobStatus) : Option String := status.phase

/-- The membership test
`phase in (UWSPhase.COMPLETED, UWSPhase.ERROR, UWSPhase.ABORTED)`
of `wait_for_job_completion`. -/
def UWSPhase.isTerminal (p : UWSPhase) : Bool :=
  p = UWSPhase.COMPLETED || p = UWSPhase.ERROR || p = UWSPhase.ABORTED

/-- Result of a run of the poll loop. -/
inductive WaitOutcome where
  | returned (status : JobStatus)
  | raised (e : PyError)
  | fuelOut
deriving DecidableEq, Repr

/-- Observable trace of a run of the poll loop: its outcome, the number of
status fetches it performed, and the durations of the suspensions it made
(in order). -/
structure WaitTrace where
  outcome : WaitOutcome
  fetches : Nat
  sleeps : List Nat
deriving DecidableEq, Repr

/-- `UWSClient.wait_for_job_completion` of `uwsclient.py`.  `source i` is the
status parsed from the `i`-th fetch.  At the `i`-th iteration the elapsed
event-loop time since the recorded start instant is `i * poll_interval`
(the loop has slept `i` times; fetches are instantaneous in this clock).
Per the source: fetch, classify the phase with `UWSPhase(...)` (which can
raise `ValueError`), return the status on a terminal phase, raise
`TimeoutError` when the elapsed time strictly exceeds `timeout`, otherwise
sleep `poll_interval` and repeat.  Fuel bounds the unbounded `while True`. -/
def wait_for_job_completion (source : Nat → JobStatus) (job_id : String)
    (timeout poll_interval : Nat) : Nat → Nat → WaitTrace
  | 0, _ => ⟨.fuelOut, 0, []⟩
  | fuel + 1, i =>
    let status := source i
    match phaseOf (getPhaseField status) with
    | .error e => ⟨.raised e, 1, []⟩
    | .ok phase =>
      if phase.isTerminal then ⟨.returned status, 1, []⟩
      else if timeout < i * poll_interval then
        ⟨.raised (.timeoutError job_id timeout), 1, []⟩
      else
        let rest := wait_for_job_completion source job_id timeout poll_interval fuel (i + 1)
        ⟨rest.outcome, rest.fetches + 1, poll_interval :: rest.sleeps⟩

/-- A status whose phase is `EXECUTING`, used in concrete witnesses. -/
def execStatus : JobStatus :=
  { job_id := some "j1", phase := some "EXECUTING", run_id := none,
    owner_id := none, creation_time := none, start_time := none,
    end_time := none, execution_duration := none, destruction := none,
    results := [] }

/-- A status whose phase is `COMPLETED`, used in concrete witnesses. -/
def doneStatus : JobStatus := { execStatus with phase := some "COMPLETED" }

/-- A status whose phase is the unrecognized string `SUSPENDED`. -/
def suspendedStatus : JobStatus := { execStatus with phase := some "SUSPENDED" }

/-- C1: for every sequence of polled statuses, `wait_for_job_completion`
returns the fetched status immediately (without raising) as soon as the
observed phase is in the terminal set `{COMPLETED, ERROR, ABORTED}`; for
every other observed phase (within the deadline) it does not return and
performs a further polling iteration after one more fetch. -/
theorem wait_terminal_returns_else_continues
    (source : Nat → JobStatus) (job_id : String)
    (timeout poll_interval fuel i : Nat) (p : UWSPhase)
    (hp : phaseOf (getPhaseField (source i)) = .ok p) :
    (p.isTerminal = true →
      wait_for_job_completion source job_id timeout poll_interval (fuel + 1) i =
        ⟨.returned (source i), 1, []⟩) ∧
    (p.isTerminal = false → i * poll_interval ≤ timeout →
      wait_for_job_completion source job_id timeout poll_interval (fuel + 1) i =
        ⟨(wait_for_job_completion source job_id timeout poll_interval fuel (i + 1)).outcome,
         (wait_for_job_completion source job_id timeout poll_interval fuel (i + 1)).fetches + 1,
         poll_interval ::
           (wait_for_job_completion source job_id timeout poll_interval fuel (i + 1)).sleeps⟩) := by
  constructor
  · intro ht
    simp [wait_for_job_completion, hp, ht]
  · intro ht hle
    simp [wait_for_job_completion, hp, ht, Nat.not_lt.mpr hle]

/-- Witness for C1: a terminal fetch (`COMPLETED`) returns at once, and a
non-terminal fetch (`EXECUTING`) within the deadline keeps polling. -/
theorem wait_terminal_returns_else_continues_witness :
    wait_for_job_completion (fun _ => doneStatus) "j1" 10 2 1 0 =
      ⟨.returned doneStatus, 1, []⟩ ∧
    wait_for_job_completion (fun _ => execStatus) "j1" 10 2 2 0 =
      ⟨(wait_for_job_completion (fun _ => execStatus) "j1" 10 2 1 1).outcome,
       (wait_for_job_completion (fun _ => execStatus) "j1" 10 2 1 1).fetches + 1,
       2 :: (wait_for_job_completion (fun _ => execStatus) "j1" 10 2 1 1).sleeps⟩ :=
  ⟨(wait_terminal_returns_else_continues (fun _ => doneStatus) "j1" 10 2 0 0
      .COMPLETED rfl).1 rfl,
   (wait_terminal_returns_else_continues (fun _ => execStatus) "j1" 10 2 1 0
      .EXECUTING rfl).2 rfl (by decide)⟩

/-- C2 (code bug): the client does not map an unrecognized phase string to
`UNKNOWN`.  `UWSPhase` has no fallback member lookup, so
`UWSPhase("SUSPENDED")` raises `ValueError` and the poll loop aborts at the
first such fetch instead of continuing to poll; the `"UNKNOWN"` default in
`status.get("phase", "UNKNOWN")` is dead because the parser always stores
the key. -/
theorem unrecognized_phase_raises_valueError :
    phaseOf (some "SUSPENDED") = .error (.valueError (some "SUSPENDED")) ∧
    wait_for_job_completion (fun _ => suspendedStatus) "j1" 100 5 3 0 =
      ⟨.raised (.valueError (some "SUSPENDED")), 1, []⟩ :=
  ⟨rfl, rfl⟩

/-- Auxiliary loop lemma for C3: starting at fetch index `i`, with `k`
further `EXECUTING` fetches before a `COMPLETED` one and the deadline not
yet exceeded, the loop returns the `COMPLETED` status after `k + 1` fetches
and `k` suspensions of `poll_interval`. -/
theorem wait_exec_aux (source : Nat → JobStatus) (job_id : String)
    (timeout poll_interval : Nat) :
    ∀ (k fuel i : Nat),
      (∀ j, j < k → getPhaseField (source (i + j)) = some "EXECUTING") →
      getPhaseField (source (i + k)) = some "COMPLETED" →
      (∀ j, j < k → (i + j) * poll_interval ≤ timeout) →
      k < fuel →
      wait_for_job_completion source job_id timeout poll_interval fuel i =
        ⟨.returned (source (i + k)), k + 1, List.replicate k poll_interval⟩ := by
  intro k
  induction k with
  | zero =>
    intro fuel i _ hcomp _ hfuel
    match fuel, hfuel with
    | fuel + 1, _ =>
      simp only [Nat.add_zero] at hcomp
      simp [wait_for_job_completion, hcomp, phaseOf, UWSPhase.ofString,
        UWSPhase.isTerminal]
  | succ k ih =>
    intro fuel i hexec hcomp htime hfuel
    match fuel, hfuel with
    | fuel + 1, hfuel =>
      have h0 : getPhaseField (source i) = some "EXECUTING" := by
        have h := hexec 0 (Nat.succ_pos k)
        simpa using h
      have ht0 : i * poll_interval ≤ timeout := by
        have h := htime 0 (Nat.succ_pos k)
        simpa using h
      have hrec := ih fuel (i + 1)
        (fun j hj => by
          rw [show i + 1 + j = i + (j + 1) by omega]
          exact hexec (j + 1) (Nat.succ_lt_succ hj))
        (by
          rw [show i + 1 + k = i + (k + 1) by omega]
          exact hcomp)
        (fun j hj => by
          rw [show i + 1 + j = i + (j + 1) by omega]
          exact htime (j + 1) (Nat.succ_lt_succ hj))
        (Nat.succ_lt_succ_iff.mp hfuel)
      rw [show i + (k + 1) = i + 1 + k by omega]
      simp [wait_for_job_completion, h0, phaseOf, UWSPhase.ofString,
        UWSPhase.isTerminal, Nat.not_lt.mpr ht0, hrec, List.replicate_succ]

/-- C3: if the status source reports phase `EXECUTING` for the first `k`
fetches and `COMPLETED` on every fetch thereafter, and the deadline is not
exceeded during the `EXECUTING` fetches, then `wait_for_job_completion`
performs exactly `k + 1` status fetches, suspends for `poll_interval`
between consecutive fetches (`k` suspensions of `poll_interval` each), and
returns the `COMPLETED` status of fetch `k`. -/
theorem wait_executing_then_completed_fetches
    (source : Nat → JobStatus) (job_id : String)
    (timeout poll_interval k fuel : Nat)
    (hexec : ∀ i, i < k → getPhaseField (source i) = some "EXECUTING")
    (hcomp : ∀ i, k ≤ i → getPhaseField (source i) = some "COMPLETED")
    (htime : ∀ i, i < k → i * poll_interval ≤ timeout)
    (hfuel : k < fuel) :
    wait_for_job_completion source job_id timeout poll_interval fuel 0 =
      ⟨.returned (source k), k + 1, List.replicate k poll_interval⟩ := by
  have h := wait_exec_aux source job_id timeout poll_interval k fuel 0
    (fun j hj => by simpa using hexec j hj)
    (by simpa using hcomp k le_rfl)
    (fun j hj => by simpa using htime j hj)
    hfuel
  simpa using h

/-- Status source for the C3 witness: `EXECUTING` twice, then `COMPLETED`. -/
def srcC3 : Nat → JobStatus := fun i => if i < 2 then execStatus else doneStatus

/-- Witness for C3 at `k = 2`, `poll_interval = 3`, `timeout = 10`:
three fetches, two suspensions, `COMPLETED` status returned. -/
theorem wait_executing_then_completed_fetches_witness :
    wait_for_job_completion srcC3 "j1" 10 3 4 0 =
      ⟨.returned (srcC3 2), 2 + 1, List.replicate 2 3⟩ :=
  wait_executing_then_completed_fetches srcC3 "j1" 10 3 2 4
    (fun i hi => match i, hi with
      | 0, _ => rfl
      | 1, _ => rfl)
    (fun i hi => by
      simp [srcC3, getPhaseField, Nat.not_lt.mpr hi, doneStatus, execStatus])
    (fun i hi => by omega)
    (by omega)

/-- Auxiliary loop lemma for C4: when every fetch yields a recognized
non-terminal phase and `poll_interval` is positive, the loop starting at
fetch index `i` with `d = timeout / poll_interval + 1 - i` raises
`TimeoutError` after `d + 1` further fetches and `d` suspensions. -/
theorem wait_timeout_aux (source : Nat → JobStatus) (job_id : String)
    (timeout poll_interval : Nat) (hpos : 0 < poll_interval)
    (hnt : ∀ i, ∃ p, phaseOf (getPhaseField (source i)) = .ok p ∧
      p.isTerminal = false) :
    ∀ (d i fuel : Nat), i + d = timeout / poll_interval + 1 → d < fuel →
      wait_for_job_completion source job_id timeout poll_interval fuel i =
        ⟨.raised (.timeoutError job_id timeout), d + 1,
          List.replicate d poll_interval⟩ := by
  intro d
  induction d with
  | zero =>
    intro i fuel hi hfuel
    match fuel, hfuel with
    | fuel + 1, _ =>
      obtain ⟨p, hp, hterm⟩ := hnt i
      have hgt : timeout < i * poll_interval := by
        have hi' : i = timeout / poll_interval + 1 := by omega
        subst hi'
        exact (Nat.div_lt_iff_lt_mul hpos).mp
          (Nat.lt_succ_self (timeout / poll_interval))
      simp [wait_for_job_completion, hp, hterm, hgt]
  | succ d ih =>
    intro i fuel hi hfuel
    match fuel, hfuel with
    | fuel + 1, hfuel =>
      obtain ⟨p, hp, hterm⟩ := hnt i
      have hle : i * poll_interval ≤ timeout := by
        have hi' : i ≤ timeout / poll_interval := by omega
        calc i * poll_interval
            ≤ (timeout / poll_interval) * poll_interval :=
              Nat.mul_le_mul_right _ hi'
          _ ≤ timeout := Nat.div_mul_le_self _ _
      have hrec := ih (i + 1) fuel (by omega) (by omega)
      simp [wait_for_job_completion, hp, hterm, Nat.not_lt.mpr hle, hrec,
        List.replicate_succ]

/-- C4: if the status source never yields a terminal phase, the poll loop
raises `TimeoutError` carrying the job id and the timeout value; it raises
at the first fetch whose elapsed time `i * poll_interval` strictly exceeds
`timeout` (conjunct two), and at every earlier fetch the elapsed time was
still within `timeout` (conjunct three), so it never raises before the
elapsed time exceeds the timeout. -/
theorem wait_nonterminal_times_out
    (source : Nat → JobStatus) (job_id : String)
    (timeout poll_interval fuel : Nat) (hpos : 0 < poll_interval)
    (hnt : ∀ i, ∃ p, phaseOf (getPhaseField (source i)) = .ok p ∧
      p.isTerminal = false)
    (hfuel : timeout / poll_interval + 1 < fuel) :
    wait_for_job_completion source job_id timeout poll_interval fuel 0 =
      ⟨.raised (.timeoutError job_id timeout), timeout / poll_interval + 2,
        List.replicate (timeout / poll_interval + 1) poll_interval⟩ ∧
    timeout < (timeout / poll_interval + 1) * poll_interval ∧
    (∀ i, i ≤ timeout / poll_interval → i * poll_interval ≤ timeout) := by
  refine ⟨?_, ?_, ?_⟩
  · have h := wait_timeout_aux source job_id timeout poll_interval hpos hnt
      (timeout / poll_interval + 1) 0 fuel (by omega) hfuel
    simpa using h
  · exact (Nat.div_lt_iff_lt_mul hpos).mp
      (Nat.lt_succ_self (timeout / poll_interval))
  · intro i hi
    calc i * poll_interval
        ≤ (timeout / poll_interval) * poll_interval :=
          Nat.mul_le_mul_right _ hi
      _ ≤ timeout := Nat.div_mul_le_self _ _

/-- Witness for C4: a constant `EXECUTING` source with `timeout = 7` and
`poll_interval = 3` times out after `7 / 3 + 2 = 4` fetches, at elapsed
time `(7 / 3 + 1) * 3 = 9 > 7`. -/
theorem wait_nonterminal_times_out_witness :
    wait_for_job_completion (fun _ => execStatus) "j1" 7 3 5 0 =
      ⟨.raised (.timeoutError "j1" 7), 7 / 3 + 2, List.replicate (7 / 3 + 1) 3⟩ ∧
    7 < (7 / 3 + 1) * 3 :=
  ⟨(wait_nonterminal_times_out (fun _ => execStatus) "j1" 7 3 5 (by omega)
      (fun _ => ⟨.EXECUTING, rfl, rfl⟩) (by omega)).1,
   (wait_nonterminal_times_out (fun _ => execStatus) "j1" 7 3 5 (by omega)
      (fun _ => ⟨.EXECUTING, rfl, rfl⟩) (by omega)).2.1⟩

/-- Python `str.split(sep)` for a one-character separator, on character
lists: splits at every occurrence of `sep` and keeps empty segments.  `acc`
holds the characters of the current segment in reverse. -/
def pySplitAux (sep : Char) : List Char → List Char → List (List Char)
  | [], acc => [acc.reverse]
  | c :: cs, acc =>
    if c = sep then acc.reverse :: pySplitAux sep cs []
    else pySplitAux sep cs (c :: acc)

/-- Python `location.split(sep)`. -/
def pySplit (sep : Char) (s : List Char) : List (List Char) :=
  pySplitAux sep s []

/-- Specification-side reading of "final path segment": the suffix of the
string after the last occurrence of the separator (the whole string when
the separator does not occur). -/
def lastSegment (sep : Char) (s : List Char) : List Char :=
  (s.reverse.takeWhile (fun c => !decide (c = sep))).reverse

theorem takeWhile_append_all (p : Char → Bool) :
    ∀ (xs l : List Char),
      (xs ++ l).takeWhile p =
        if xs.all p then xs ++ l.takeWhile p else xs.takeWhile p := by
  intro xs
  induction xs with
  | nil => intro l; simp
  | cons c cs ih =>
    intro l
    by_cases hc : p c = true
    · by_cases hall : cs.all p = true
      · simp [List.takeWhile_cons, hc, hall, ih]
      · simp [List.takeWhile_cons, hc, hall, ih]
    · simp [List.takeWhile_cons, hc, Bool.eq_false_iff.mpr hc]

theorem all_not_eq_false_of_mem (sep : Char) (l : List Char) (h : sep ∈ l) :
    (l.all fun c => !decide (c = sep)) = false := by
  induction l with
  | nil => cases h
  | cons c cs ih =>
    rcases List.mem_cons.mp h with hc | hc
    · simp [List.all_cons, hc]
    · simp [List.all_cons, ih hc]

theorem all_not_eq_true_of_not_mem (sep : Char) (l : List Char)
    (h : sep ∉ l) : (l.all fun c => !decide (c = sep)) = true := by
  rw [List.all_eq_true]
  intro c hc
  simp only [Bool.not_eq_eq_eq_not, Bool.not_true, decide_eq_false_iff_not]
  exact fun he => h (he ▸ hc)

theorem lastSegment_cons_of_mem (sep c : Char) (cs : List Char)
    (hm : sep ∈ cs) : lastSegment sep (c :: cs) = lastSegment sep cs := by
  unfold lastSegment
  rw [List.reverse_cons, takeWhile_append_all,
    if_neg (by simp [all_not_eq_false_of_mem sep _ (List.mem_reverse.mpr hm)])]

/-- The last segment produced by `pySplitAux` is the suffix after the last
separator, or the pending segment `acc.reverse ++ s` when no separator
occurs in the remaining input. -/
theorem pySplitAux_getLastD (sep : Char) :
    ∀ (s acc d : List Char),
      (pySplitAux sep s acc).getLastD d =
        if sep ∈ s then lastSegment sep s else acc.reverse ++ s := by
  intro s
  induction s with
  | nil =>
    intro acc d
    simp [pySplitAux, lastSegment]
  | cons c cs ih =>
    intro acc d
    by_cases hc : c = sep
    · rw [show pySplitAux sep (c :: cs) acc =
            acc.reverse :: pySplitAux sep cs [] by simp [pySplitAux, hc],
          List.getLastD_cons, ih,
          if_pos (List.mem_cons.mpr (Or.inl hc.symm))]
      by_cases hm : sep ∈ cs
      · rw [if_pos hm, lastSegment_cons_of_mem sep c cs hm]
      · rw [if_neg hm]
        unfold lastSegment
        rw [List.reverse_cons, takeWhile_append_all,
          if_pos (all_not_eq_true_of_not_mem sep _
            (fun hx => hm (List.mem_reverse.mp hx)))]
        rw [show List.takeWhile (fun x => !decide (x = sep)) [c] = [] by
          simp [List.takeWhile_cons, hc]]
        simp
    · rw [show pySplitAux sep (c :: cs) acc = pySplitAux sep cs (c :: acc) by
            simp [pySplitAux, hc],
          ih]
      by_cases hm : sep ∈ cs
      · rw [if_pos hm, if_pos (List.mem_cons.mpr (Or.inr hm)),
          lastSegment_cons_of_mem sep c cs hm]
      · rw [if_neg hm, if_neg (fun h => by
          rcases List.mem_cons.mp h with h1 | h2
          · exact hc h1.symm
          · exact hm h2)]
        simp

/-- Refinement: Python `location.split("/")[-1]` computes exactly the final
path segment (the suffix after the last separator). -/
theorem pySplit_getLastD_eq_lastSegment (sep : Char) (s : List Char) :
    (pySplit sep s).getLastD [] = lastSegment sep s := by
  rw [pySplit, pySplitAux_getLastD]
  by_cases hm : sep ∈ s
  · rw [if_pos hm]
  · rw [if_neg hm]
    unfold lastSegment
    rw [List.takeWhile_eq_self_iff.mpr (fun x hx => by
      simp only [Bool.not_eq_eq_eq_not, Bool.not_true, decide_eq_false_iff_not]
      exact fun he => hm (he ▸ List.mem_reverse.mp hx))]
    simp

/-- An HTTP response as seen by `create_job`: status code, optional
`Location` header value, response body text. -/
structure HttpResponse where
  status : Nat
  location : Option String
  body : String
deriving DecidableEq, Repr

/-- Python `location.split("/")[-1]`: `split` on a one-character separator
always yields a non-empty list, so `[-1]` is its last element. -/
def lastSplitSegment (location : String) : String :=
  ((pySplit '/' location.toList).getLastD []).asString

/-- Response handling of `UWSClient.create_job` in `uwsclient.py`: on HTTP
303 return the last `/`-separated segment of the `Location` header
(defaulting to the empty string when the header is absent); on any other
status raise an `Exception` whose message interpolates the status code and
the response body. -/
def create_job_response (resp : HttpResponse) : Except String String :=
  if resp.status = 303 then
    .ok (lastSplitSegment (resp.location.getD ""))
  else
    .error ("Failed to create job: " ++ toString resp.status ++ " " ++ resp.body)

/-- Response handling of `create_job` in `uws.py`: the same 303 handling,
but the raised `Exception` message interpolates only the response body. -/
def uws_create_job_response (resp : HttpResponse) : Except String String :=
  if resp.status = 303 then
    .ok (lastSplitSegment (resp.location.getD ""))
  else
    .error ("Failed to create job: " ++ resp.body)

/-- C5: for every submission response with HTTP status 303 and a `Location`
header, both `create_job` variants return the final path segment of the
`Location` value (the suffix after its last `/`) as the job id. -/
theorem create_job_returns_last_location_segment (resp : HttpResponse)
    (loc : String) (h303 : resp.status = 303)
    (hloc : resp.location = some loc) :
    create_job_response resp = .ok ((lastSegment '/' loc.toList).asString) ∧
    uws_create_job_response resp =
      .ok ((lastSegment '/' loc.toList).asString) := by
  have key : lastSplitSegment loc = (lastSegment '/' loc.toList).asString := by
    unfold lastSplitSegment
    rw [pySplit_getLastD_eq_lastSegment]
  constructor
  · unfold create_job_response
    rw [if_pos h303, hloc]
    simp [key]
  · unfold uws_create_job_response
    rw [if_pos h303, hloc]
    simp [key]

/-- Witness for C5: `Location: https://host/jobs/abc123` yields job id
`abc123` in both variants. -/
theorem create_job_returns_last_location_segment_witness :
    create_job_response ⟨303, some "https://host/jobs/abc123", ""⟩ =
      .ok "abc123" ∧
    uws_create_job_response ⟨303, some "https://host/jobs/abc123", ""⟩ =
      .ok "abc123" := by
  have h := create_job_returns_last_location_segment
    ⟨303, some "https://host/jobs/abc123", ""⟩ "https://host/jobs/abc123"
    rfl rfl
  exact ⟨h.1.trans (congrArg Except.ok (by decide)),
         h.2.trans (congrArg Except.ok (by decide))⟩

/-- `startsWithSeg n l` holds when `n` is an initial segment of `l`. -/
def startsWithSeg : List Char → List Char → Bool
  | [], _ => true
  | _ :: _, [] => false
  | a :: as, b :: bs => if a = b then startsWithSeg as bs else false

/-- `hasSeg n l` holds when `n` occurs as a contiguous segment of `l`;
used to express that an error message carries a piece of data. -/
def hasSeg (n : List Char) : List Char → Bool
  | [] => startsWithSeg n []
  | c :: cs => startsWithSeg n (c :: cs) || hasSeg n cs

theorem startsWithSeg_self_append (n t : List Char) :
    startsWithSeg n (n ++ t) = true := by
  induction n with
  | nil => rfl
  | cons a as ih => simp [startsWithSeg, ih]

theorem hasSeg_of_startsWithSeg (n l : List Char)
    (h : startsWithSeg n l = true) : hasSeg n l = true := by
  cases l with
  | nil => simpa [hasSeg] using h
  | cons c cs => simp [hasSeg, h]

theorem hasSeg_append_left (n : List Char) (pre : List Char) (l : List Char)
    (h : hasSeg n l = true) : hasSeg n (pre ++ l) = true := by
  induction pre with
  | nil => simpa using h
  | cons c cs ih => simp [List.cons_append, hasSeg, ih]

/-- A segment embedded between a preamble and a suffix occurs in the list. -/
theorem hasSeg_embedded (pre n suf : List Char) :
    hasSeg n (pre ++ n ++ suf) = true := by
  rw [List.append_assoc]
  exact hasSeg_append_left n pre (n ++ suf)
    (hasSeg_of_startsWithSeg n (n ++ suf) (startsWithSeg_self_append n suf))

/-- Counterexample for C6: the `uws.py` variant of `create_job`, given a
response with status 500 and body `bad request`, raises an `Exception`
whose message interpolates only the body; the status code 500 does not
occur anywhere in the raised message, so the error does not carry the
response status code. -/
theorem uws_create_job_error_omits_status :
    uws_create_job_response ⟨500, none, "bad request"⟩ =
      .error "Failed to create job: bad request" ∧
    hasSeg "500".toList "Failed to create job: bad request".toList = false :=
  ⟨rfl, rfl⟩

/-- C6 amended: for every submission response whose status is not 303, both
`create_job` variants raise and return no job id; the `uwsclient.py`
variant's error message carries both the status code and the response
body, while the `uws.py` variant's error message carries the body only
(its message omits the status code, as the counterexample shows at
status 500 with body `bad request`). -/
theorem create_job_error_payloads (status : Nat) (loc : Option String)
    (body : String) (h : ¬ status = 303) :
    (create_job_response ⟨status, loc, body⟩ =
        .error ("Failed to create job: " ++ toString status ++ " " ++ body) ∧
      hasSeg (toString status).toList
        ("Failed to create job: " ++ toString status ++ " " ++ body).toList
        = true ∧
      hasSeg body.toList
        ("Failed to create job: " ++ toString status ++ " " ++ body).toList
        = true) ∧
    (uws_create_job_response ⟨status, loc, body⟩ =
        .error ("Failed to create job: " ++ body) ∧
      hasSeg body.toList ("Failed to create job: " ++ body).toList = true) := by
  have hdata : ∀ s t : String, (s ++ t).toList = s.toList ++ t.toList :=
    fun s t => String.data_append s t
  refine ⟨⟨?_, ?_, ?_⟩, ?_, ?_⟩
  · simp [create_job_response, h]
  · rw [show ("Failed to create job: " ++ toString status ++ " " ++ body).toList
        = "Failed to create job: ".toList ++ (toString status).toList ++
          (" " ++ body).toList by
      simp [hdata, List.append_assoc]]
    exact hasSeg_embedded _ _ _
  · rw [show ("Failed to create job: " ++ toString status ++ " " ++ body).toList
        = ("Failed to create job: " ++ toString status ++ " ").toList ++
          body.toList ++ [] by
      rw [hdata, List.append_nil]]
    exact hasSeg_embedded _ _ _
  · simp [uws_create_job_response, h]
  · rw [show ("Failed to create job: " ++ body).toList
        = "Failed to create job: ".toList ++ body.toList ++ [] by
      rw [hdata, List.append_nil]]
    exact hasSeg_embedded _ _ _

/-- Witness for C6's amended theorem at status 500, body `bad request`. -/
theorem create_job_error_payloads_witness :
    (create_job_response ⟨500, none, "bad request"⟩ =
        .error ("Failed to create job: " ++ toString 500 ++ " " ++ "bad request") ∧
      hasSeg (toString 500).toList
        ("Failed to create job: " ++ toString 500 ++ " " ++ "bad request").toList
        = true ∧
      hasSeg "bad request".toList
        ("Failed to create job: " ++ toString 500 ++ " " ++ "bad request").toList
        = true) ∧
    (uws_create_job_response ⟨500, none, "bad request"⟩ =
        .error ("Failed to create job: " ++ "bad request") ∧
      hasSeg "bad request".toList
        ("Failed to create job: " ++ "bad request").toList = true) :=
  create_job_error_payloads 500 none "bad request" (by decide)

/-- An XML element as produced by `xml.etree.ElementTree.fromstring` on a
well-formed document: namespaces are resolved into tag and attribute names
(Clark notation, `\x7buri\x7dlocal`), `text` is the element's text content
(absent for an empty element), and `children` are its direct child
elements in document order. -/
inductive XmlElem where
  | mk (tag : String) (attrs : List (String × String))
      (text : Option String) (children : List XmlElem)

def XmlElem.tag : XmlElem → String
  | .mk t _ _ _ => t

def XmlElem.attrs : XmlElem → List (String × String)
  | .mk _ a _ _ => a

def XmlElem.text : XmlElem → Option String
  | .mk _ _ tx _ => tx

def XmlElem.children : XmlElem → List XmlElem
  | .mk _ _ _ cs => cs

/-- Clark notation for a namespaced name, as ElementTree renders names once
a namespace mapping is applied. -/
def clark (uri name : String) : String := "\x7b" ++ uri ++ "\x7d" ++ name

/-- The `uws` namespace URI of the parser's namespace mapping. -/
def uwsNS : String := "http://www.ivoa.net/xml/UWS/v1.0"

/-- The `xlink` namespace URI of the parser's namespace mapping. -/
def xlinkNS : String := "http://www.w3.org/1999/xlink"

/-- `root.find(path, ns)` for a path without separators: the first direct
child whose (namespace-expanded) tag matches, in document order. -/
def findChild (e : XmlElem) (tag : String) : Option XmlElem :=
  e.children.find? (fun c => c.tag == tag)

/-- `elem.findall(path, ns)` for a path without separators: all direct
children with the given tag, in document order. -/
def findAllChildren (e : XmlElem) (tag : String) : List XmlElem :=
  e.children.filter (fun c => c.tag == tag)

/-- `elem.get(name)`: attribute lookup. -/
def attrGet (e : XmlElem) (name : String) : Option String :=
  (e.attrs.find? (fun a => a.1 == name)).map (fun a => a.2)

/-- The `find_text` helper of `_parse_uws_response`: text of the uws-scoped
child element, `None` when the element is absent or empty. -/
def findTextIn (root : XmlElem) (elem : String) : Option String :=
  match findChild root (clark uwsNS elem) with
  | some el => el.text
  | none => none

/-- `UWSClient._parse_uws_response` of `uwsclient.py`: scalar fields from
uws-scoped child elements, and one entry per `uws:result` child of the
`uws:results` block (`id` from the `id` attribute, `href` from the
`xlink:href` attribute, `mime_type` from the `mime-type` attribute),
defaulting to no results when the block is absent. -/
def parse_uws_response (root : XmlElem) : JobStatus :=
  { job_id := findTextIn root "jobId"
    phase := findTextIn root "phase"
    run_id := findTextIn root "runId"
    owner_id := findTextIn root "ownerId"
    creation_time := findTextIn root "creationTime"
    start_time := findTextIn root "startTime"
    end_time := findTextIn root "endTime"
    execution_duration := findTextIn root "executionDuration"
    destruction := findTextIn root "destruction"
    results :=
      match findChild root (clark uwsNS "results") with
      | some rs =>
        (findAllChildren rs (clark uwsNS "result")).map (fun re =>
          { id := attrGet re "id"
            href := attrGet re (clark xlinkNS "href")
            mime_type := attrGet re "mime-type" })
      | none => [] }

/-- C7: for every well-formed document whose `results` block contains `N`
result elements, the parser returns a results list with exactly `N`
entries, in document order, the `i`-th entry taking its `href` from the
`i`-th result element's `xlink:href` attribute, its `id` from the `id`
attribute and its `mime_type` from the `mime-type` attribute, unchanged. -/
theorem parse_results_matches_result_elements (root rs : XmlElem)
    (hrs : findChild root (clark uwsNS "results") = some rs) :
    (parse_uws_response root).results.length =
      (findAllChildren rs (clark uwsNS "result")).length ∧
    ∀ i : Nat, (parse_uws_response root).results[i]? =
      ((findAllChildren rs (clark uwsNS "result"))[i]?).map (fun re =>
        ({ id := attrGet re "id"
           href := attrGet re (clark xlinkNS "href")
           mime_type := attrGet re "mime-type" } : ResultInfo)) := by
  constructor
  · simp [parse_uws_response, hrs]
  · intro i
    simp [parse_uws_response, hrs, List.getElem?_map]

/-- Concrete result elements for the C7 witness. -/
def sampleResult0 : XmlElem :=
  .mk (clark uwsNS "result")
    [("id", "cutout0"), (clark xlinkNS "href", "https://host/r0.fits"),
     ("mime-type", "application/fits")] none []

def sampleResult1 : XmlElem :=
  .mk (clark uwsNS "result")
    [("id", "cutout1"), (clark xlinkNS "href", "https://host/r1.fits"),
     ("mime-type", "application/fits")] none []

def sampleResultsElem : XmlElem :=
  .mk (clark uwsNS "results") [] none [sampleResult0, sampleResult1]

/-- A concrete well-formed UWS job document with two results. -/
def sampleDoc : XmlElem :=
  .mk (clark uwsNS "job") [] none
    [.mk (clark uwsNS "jobId") [] (some "job42") [],
     .mk (clark uwsNS "phase") [] (some "COMPLETED") [],
     sampleResultsElem]

/-- Witness for C7 on the two-result sample document, with the pointwise
correspondence instantiated at indices 0, 1 and 2. -/
theorem parse_results_matches_result_elements_witness :
    (parse_uws_response sampleDoc).results.length =
      (findAllChildren sampleResultsElem (clark uwsNS "result")).length ∧
    (parse_uws_response sampleDoc).results[0]? =
      ((findAllChildren sampleResultsElem (clark uwsNS "result"))[0]?).map
        (fun re =>
          ({ id := attrGet re "id"
             href := attrGet re (clark xlinkNS "href")
             mime_type := attrGet re "mime-type" } : ResultInfo)) ∧
    (parse_uws_response sampleDoc).results[1]? =
      ((findAllChildren sampleResultsElem (clark uwsNS "result"))[1]?).map
        (fun re =>
          ({ id := attrGet re "id"
             href := attrGet re (clark xlinkNS "href")
             mime_type := attrGet re "mime-type" } : ResultInfo)) ∧
    (parse_uws_response sampleDoc).results[2]? =
      ((findAllChildren sampleResultsElem (clark uwsNS "result"))[2]?).map
        (fun re =>
          ({ id := attrGet re "id"
             href := attrGet re (clark xlinkNS "href")
             mime_type := attrGet re "mime-type" } : ResultInfo)) :=
  ⟨(parse_results_matches_result_elements sampleDoc sampleResultsElem rfl).1,
   (parse_results_matches_result_elements sampleDoc sampleResultsElem rfl).2 0,
   (parse_results_matches_result_elements sampleDoc sampleResultsElem rfl).2 1,
   (parse_results_matches_result_elements sampleDoc sampleResultsElem rfl).2 2⟩

/-- A response to a `GET` of a result href: HTTP status and body bytes. -/
structure UrlResponse where
  status : Nat
  bytes : List Nat
deriving DecidableEq, Repr

/-- First character is the POSIX separator (`b.startswith(sep)`). -/
def startsWithSlash (s : String) : Bool :=
  match s.toList with
  | c :: _ => c == '/'
  | [] => false

/-- Last character is the POSIX separator (`path.endswith(sep)`). -/
def endsWithSlash (s : String) : Bool :=
  match s.toList.getLast? with
  | some c => c == '/'
  | none => false

/-- `posixpath.join` for two components, as `os.path.join` behaves in
`client.py`: the second component replaces the path when absolute,
otherwise it is appended, with a separator unless the first component is
empty or already ends with one. -/
def pyPathJoin (a b : String) : String :=
  if startsWithSlash b then b
  else if a == "" || endsWithSlash a then a ++ b
  else a ++ "/" ++ b

/-- Structural helper for `readChunks`: the fuel dominates the length of
the remaining body, so the recursion is structural and computes. -/
def readChunksAux : Nat → List Nat → List (List Nat)
  | _, [] => []
  | 0, l => [l]
  | fuel + 1, c :: cs =>
    ((c :: cs).take 8192) :: readChunksAux fuel ((c :: cs).drop 8192)

/-- The chunking performed by `response.content.read(8192)`: successive
chunks of at most 8192 bytes until the body is exhausted. -/
def readChunks (l : List Nat) : List (List Nat) := readChunksAux l.length l

theorem readChunksAux_flatten :
    ∀ (fuel : Nat) (l : List Nat), l.length ≤ fuel →
      (readChunksAux fuel l).flatten = l := by
  intro fuel
  induction fuel with
  | zero =>
    intro l hl
    rw [List.length_eq_zero.mp (Nat.le_zero.mp hl)]
    simp [readChunksAux]
  | succ fuel ih =>
    intro l hl
    cases l with
    | nil => simp [readChunksAux]
    | cons c cs =>
      rw [readChunksAux]
      rw [List.flatten_cons, ih ((c :: cs).drop 8192) (by
        simp only [List.length_drop, List.length_cons]
        simp only [List.length_cons] at hl
        omega)]
      exact List.take_append_drop 8192 (c :: cs)

/-- Writing all chunks in order reproduces the body: the downloaded file's
contents equal the streamed response body. -/
theorem readChunks_join (l : List Nat) : (readChunks l).flatten = l :=
  readChunksAux_flatten l.length l le_rfl

/-- Errors raised along the cutout orchestration. -/
inductive CutoutError where
  | nullUrl
  | downloadFailed (status : Nat) (bytes : List Nat)
  | jobFailed (phase : Option String)
deriving DecidableEq, Repr

/-- `download_result` of `uws.py`: resolve the output path with
`os.path.abspath` (modelled by the environment function `abspath`, since
it depends on the process working directory), `GET` the URL, and on HTTP
200 stream the body to the file in chunks of 8192 bytes; `aiohttp` cannot
fetch a `None` URL (`result["href"]` may be `None`), and a non-200
response raises. -/
def download_result (responses : String → UrlResponse)
    (abspath : String → String) (url : Option String) (output_path : String) :
    Except CutoutError (String × List Nat) :=
  match url with
  | none => .error .nullUrl
  | some u =>
    let resp := responses u
    if resp.status = 200 then
      .ok (abspath output_path, (readChunks resp.bytes).flatten)
    else
      .error (.downloadFailed resp.status resp.bytes)

/-- The download loop of `async_cutout` over the result list, enumerating
from index `idx`: for each result build the path
`os.path.join(output_dir, "cutout_<i>.fits")` and download
`result["href"]` there.  Returns the download attempts made (the href and
output path of each `download_result` call, in order), the files written
(resolved path and contents), and the first error, if any. -/
def download_loop (responses : String → UrlResponse)
    (abspath : String → String) (output_dir : String) :
    List ResultInfo → Nat →
      List (Option String × String) × List (String × List Nat) ×
        Option CutoutError
  | [], _ => ([], [], none)
  | r :: rest, idx =>
    let path := pyPathJoin output_dir ("cutout_" ++ toString idx ++ ".fits")
    match download_result responses abspath r.href path with
    | .ok w =>
      let next := download_loop responses abspath output_dir rest (idx + 1)
      ((r.href, path) :: next.1, w :: next.2.1, next.2.2)
    | .error e => ([(r.href, path)], [], some e)

/-- Outcome of a run of the `async_cutout` orchestration. -/
inductive CutoutOutcome where
  | finished
  | raised (e : CutoutError)
  | fuelOut
deriving DecidableEq, Repr

/-- Observable trace of a run of `async_cutout`: outcome, the download
attempts performed, and the files written. -/
structure CutoutTrace where
  outcome : CutoutOutcome
  downloads : List (Option String × String)
  writes : List (String × List Nat)
deriving DecidableEq, Repr

/-- The polling/download loop of `async_cutout` in `client.py` (after job
creation).  `source i` is the status parsed from the `i`-th GET of the job
resource.  Each iteration fetches a status (`get_job_status`); on phase
`COMPLETED` the code calls `get_job_results`, which performs one further
GET (consuming `source (i + 1)`) and yields its `results` list, and then
downloads every result in order; on `ERROR` or `ABORTED` it raises the
job-failure error; on any other phase it sleeps 5 seconds and repeats. -/
def async_cutout (responses : String → UrlResponse)
    (abspath : String → String) (source : Nat → JobStatus)
    (output_dir : String) : Nat → Nat → CutoutTrace
  | 0, _ => ⟨.fuelOut, [], []⟩
  | fuel + 1, i =>
    let phase := (source i).phase
    if phase = some "COMPLETED" then
      let results := (source (i + 1)).results
      let d := download_loop responses abspath output_dir results 0
      match d.2.2 with
      | none => ⟨.finished, d.1, d.2.1⟩
      | some e => ⟨.raised e, d.1, d.2.1⟩
    else if phase = some "ERROR" ∨ phase = some "ABORTED" then
      ⟨.raised (.jobFailed phase), [], []⟩
    else
      async_cutout responses abspath source output_dir fuel (i + 1)

/-- Skipping lemma: while the observed phase is neither `COMPLETED` nor
`ERROR`/`ABORTED`, each iteration of `async_cutout` just consumes one unit
of fuel and advances the fetch index. -/
theorem async_cutout_skip (responses : String → UrlResponse)
    (abspath : String → String) (source : Nat → JobStatus)
    (output_dir : String) :
    ∀ (n i f : Nat),
      (∀ j, j < n → ¬ (source (i + j)).phase = some "COMPLETED" ∧
        ¬ (source (i + j)).phase = some "ERROR" ∧
        ¬ (source (i + j)).phase = some "ABORTED") →
      async_cutout responses abspath source output_dir (n + f) i =
        async_cutout responses abspath source output_dir f (i + n) := by
  intro n
  induction n with
  | zero => intro i f _; simp
  | succ n ih =>
    intro i f hpre
    obtain ⟨h1, h2, h3⟩ := by simpa using hpre 0 (Nat.succ_pos n)
    rw [show n + 1 + f = (n + f) + 1 by omega]
    rw [show async_cutout responses abspath source output_dir ((n + f) + 1) i =
        async_cutout responses abspath source output_dir (n + f) (i + 1) by
      simp [async_cutout, h1, h2, h3]]
    rw [ih (i + 1) f (fun j hj => by
      rw [show i + 1 + j = i + (j + 1) by omega]
      exact hpre (j + 1) (Nat.succ_lt_succ hj))]
    rw [show i + 1 + n = i + (n + 1) by omega]

/-- C9: if the first terminal phase the orchestration observes (at fetch
`n`) is `ERROR` or `ABORTED`, `async_cutout` raises the job-failure error
carrying that phase, performs zero download attempts and writes no
files. -/
theorem async_cutout_failure_no_downloads (responses : String → UrlResponse)
    (abspath : String → String) (source : Nat → JobStatus)
    (output_dir : String) (n fuel : Nat)
    (hpre : ∀ j, j < n → ¬ (source j).phase = some "COMPLETED" ∧
      ¬ (source j).phase = some "ERROR" ∧
      ¬ (source j).phase = some "ABORTED")
    (hterm : (source n).phase = some "ERROR" ∨
      (source n).phase = some "ABORTED") :
    async_cutout responses abspath source output_dir (n + (fuel + 1)) 0 =
      ⟨.raised (.jobFailed ((source n).phase)), [], []⟩ := by
  rw [async_cutout_skip responses abspath source output_dir n 0 (fuel + 1)
    (fun j hj => by simpa using hpre j hj)]
  rcases hterm with h | h <;> simp [async_cutout, h]

/-- A `COMPLETED` status carrying one result, for the C9/C8 witnesses. -/
def abortedStatus : JobStatus := { execStatus with phase := some "ABORTED" }

/-- Witness for C9: phase `EXECUTING` then `ABORTED`; the orchestration
raises the job failure with phase `ABORTED` and no download attempts. -/
theorem async_cutout_failure_no_downloads_witness :
    async_cutout (fun _ => ⟨200, []⟩) (fun p => p)
      (fun i => if i = 0 then execStatus else abortedStatus) "out"
      (1 + (2 + 1)) 0 =
      ⟨.raised (.jobFailed ((if (1 : Nat) = 0 then execStatus
          else abortedStatus).phase)), [], []⟩ :=
  async_cutout_failure_no_downloads (fun _ => ⟨200, []⟩) (fun p => p)
    (fun i => if i = 0 then execStatus else abortedStatus) "out" 1 2
    (fun j hj => match j, hj with
      | 0, _ => by refine ⟨?_, ?_, ?_⟩ <;> simp [execStatus]
      )
    (Or.inr (by simp [abortedStatus, execStatus]))

/-- The response body associated to a result's href (all-200 case). -/
def bodyFor (responses : String → UrlResponse) (r : ResultInfo) : List Nat :=
  match r.href with
  | some u => (responses u).bytes
  | none => []

/-- When every result's href is present and answers HTTP 200, the download
loop attempts every result, indexes the file names by the result's
position, writes each body in full, and reports no error. -/
theorem download_loop_all_ok (responses : String → UrlResponse)
    (abspath : String → String) (output_dir : String) :
    ∀ (rs : List ResultInfo) (idx : Nat),
      (∀ r ∈ rs, ∃ u, r.href = some u ∧ (responses u).status = 200) →
      download_loop responses abspath output_dir rs idx =
        ((rs.enumFrom idx).map (fun q =>
            (q.2.href,
             pyPathJoin output_dir ("cutout_" ++ toString q.1 ++ ".fits"))),
         (rs.enumFrom idx).map (fun q =>
            (abspath (pyPathJoin output_dir
              ("cutout_" ++ toString q.1 ++ ".fits")),
             bodyFor responses q.2)),
         none) := by
  intro rs
  induction rs with
  | nil => intro idx _; simp [download_loop]
  | cons r rest ih =>
    intro idx hok
    obtain ⟨u, hu, h200⟩ := hok r (List.mem_cons_self r rest)
    have hdl : download_result responses abspath r.href
        (pyPathJoin output_dir ("cutout_" ++ toString idx ++ ".fits")) =
        .ok (abspath (pyPathJoin output_dir
            ("cutout_" ++ toString idx ++ ".fits")),
          (responses u).bytes) := by
      rw [hu]
      simp [download_result, h200, readChunks_join]
    simp only [download_loop, hdl]
    rw [ih (idx + 1) (fun x hx => hok x (List.mem_cons_of_mem r hx))]
    simp [List.enumFrom, bodyFor, hu]

/-- A `COMPLETED` status whose single result carries the empty-string href. -/
def emptyHrefStatus : JobStatus :=
  { doneStatus with
    results := [{ id := some "r0", href := some "",
                  mime_type := some "application/fits" }] }

/-- Counterexample for C8: the claim states that exactly the results with a
non-empty href are downloaded — for this result list (one result, empty
href) that means zero downloads (second conjunct).  But `async_cutout` has
no href filter: it performs the download attempt for the empty-href result
and writes `out/cutout_0.fits` (first conjunct). -/
theorem async_cutout_downloads_empty_href :
    async_cutout (fun _ => ⟨200, [1, 2, 3]⟩) (fun p => p)
      (fun _ => emptyHrefStatus) "out" 2 0 =
      ⟨.finished, [(some "", "out/cutout_0.fits")],
        [("out/cutout_0.fits", [1, 2, 3])]⟩ ∧
    emptyHrefStatus.results.filter
      (fun r => !decide (r.href.getD "" = "")) = [] :=
  ⟨rfl, rfl⟩

/-- C8 amended (forced by `async_cutout_downloads_empty_href`): on the
first `COMPLETED` status, the orchestration downloads EVERY result of the
follow-up fetch — the source has no non-empty-href filter — the result at
index `i` going to `os.path.join(output_dir, "cutout_<i>.fits")`; and when
every result's href is present with an HTTP-200 response, each written
file's contents equal the response body streamed for that href. -/
theorem async_cutout_downloads_all_results (responses : String → UrlResponse)
    (abspath : String → String) (source : Nat → JobStatus)
    (output_dir : String) (n fuel : Nat)
    (hpre : ∀ j, j < n → ¬ (source j).phase = some "COMPLETED" ∧
      ¬ (source j).phase = some "ERROR" ∧
      ¬ (source j).phase = some "ABORTED")
    (hcomp : (source n).phase = some "COMPLETED")
    (hok : ∀ r ∈ (source (n + 1)).results,
      ∃ u, r.href = some u ∧ (responses u).status = 200) :
    async_cutout responses abspath source output_dir (n + (fuel + 1)) 0 =
      ⟨.finished,
       (source (n + 1)).results.enum.map (fun q =>
          (q.2.href,
           pyPathJoin output_dir ("cutout_" ++ toString q.1 ++ ".fits"))),
       (source (n + 1)).results.enum.map (fun q =>
          (abspath (pyPathJoin output_dir
            ("cutout_" ++ toString q.1 ++ ".fits")),
           bodyFor responses q.2))⟩ := by
  rw [async_cutout_skip responses abspath source output_dir n 0 (fuel + 1)
    (fun j hj => by simpa using hpre j hj)]
  have hdl := download_loop_all_ok responses abspath output_dir
    ((source (n + 1)).results) 0 hok
  simp [async_cutout, hcomp, hdl, List.enum]

/-- The single result of the C8 witness scenario. -/
def resultR0 : ResultInfo :=
  { id := some "r0", href := some "https://host/r0.fits",
    mime_type := some "application/fits" }

/-- A `COMPLETED` status carrying `resultR0`. -/
def completedWithR0 : JobStatus := { doneStatus with results := [resultR0] }

/-- C8 witness source: `EXECUTING` at fetch 0, then `COMPLETED` with one
result. -/
def srcC8 : Nat → JobStatus := fun i => if i = 0 then execStatus else completedWithR0

/-- C8 witness responses: every URL answers 200 with body `[9, 8, 7]`. -/
def respC8 : String → UrlResponse := fun _ => ⟨200, [9, 8, 7]⟩

/-- Witness for C8's amended theorem: one download of `cutout_0.fits` whose
contents are the streamed body. -/
theorem async_cutout_downloads_all_results_witness :
    async_cutout respC8 (fun p => p) srcC8 "out" (1 + (1 + 1)) 0 =
      ⟨.finished,
       (srcC8 (1 + 1)).results.enum.map (fun q =>
          (q.2.href, pyPathJoin "out" ("cutout_" ++ toString q.1 ++ ".fits"))),
       (srcC8 (1 + 1)).results.enum.map (fun q =>
          (pyPathJoin "out" ("cutout_" ++ toString q.1 ++ ".fits"),
           bodyFor respC8 q.2))⟩ :=
  async_cutout_downloads_all_results respC8 (fun p => p) srcC8 "out" 1 1
    (fun j hj => match j, hj with
      | 0, _ => by refine ⟨?_, ?_, ?_⟩ <;> simp [srcC8, execStatus])
    (by simp [srcC8, completedWithR0, doneStatus, execStatus])
    (fun r hr => by
      have hr' : r = resultR0 := by
        simpa [srcC8, completedWithR0, doneStatus, execStatus] using hr
      exact ⟨"https://host/r0.fits", by simp [hr', resultR0], rfl⟩)

/-- Values of the job-parameter dictionary
(`Dict[str, Union[str, List[str]]]`). -/
inductive PVal where
  | s (v : String)
  | l (vs : List String)
deriving DecidableEq, Repr

/-- Python dictionary assignment `d[k] = v` on an insertion-ordered
dictionary: overwrites the value in place when the key is present (keeping
its position), otherwise appends the new entry. -/
def pyDictSet (d : List (String × PVal)) (k : String) (v : PVal) :
    List (String × PVal) :=
  if d.any (fun p => p.1 == k) then
    d.map (fun p => if p.1 == k then (k, v) else p)
  else d ++ [(k, v)]

/-- Python dictionary lookup `d.get(k)`. -/
def pyDictGet (d : List (String × PVal)) (k : String) : Option PVal :=
  (d.find? (fun p => p.1 == k)).map (fun p => p.2)

/-- Python truthiness of the optional `run_id` argument (`if run_id:`):
`None` and the empty string are falsy. -/
def truthyOptStr : Option String → Bool
  | none => false
  | some s => !(s == "")

/-- The parameter mutation performed by `create_job` in both `uws.py` and
`uwsclient.py`: `params["runid"] = run_id` when `run_id` is truthy, then
`params["phase"] = "RUN"` when `auto_start`.  The mutation happens in
place on the caller's dictionary object, so the returned dictionary is
both the state the caller's dictionary holds after the call and the
dictionary sent as the POST form data. -/
def create_job_params (params : List (String × PVal)) (run_id : Option String)
    (auto_start : Bool) : List (String × PVal) :=
  let p1 :=
    if truthyOptStr run_id then pyDictSet params "runid" (.s (run_id.getD ""))
    else params
  if auto_start then pyDictSet p1 "phase" (.s "RUN") else p1

theorem pyDictGet_map_set_self (k : String) (v : PVal) :
    ∀ (d : List (String × PVal)), d.any (fun p => p.1 == k) = true →
      pyDictGet (d.map (fun p => if p.1 == k then (k, v) else p)) k = some v := by
  intro d
  induction d with
  | nil => intro h; simp at h
  | cons p rest ih =>
    intro h
    by_cases hp : p.1 == k
    · simp [pyDictGet, List.find?, hp]
    · have hrest : rest.any (fun p => p.1 == k) = true := by
        simpa [List.any_cons, hp] using h
      have := ih hrest
      simpa [pyDictGet, List.find?, hp] using this

theorem pyDictGet_append_single_self (k : String) (v : PVal) :
    ∀ (d : List (String × PVal)), d.any (fun p => p.1 == k) = false →
      pyDictGet (d ++ [(k, v)]) k = some v := by
  intro d
  induction d with
  | nil => intro _; simp [pyDictGet, List.find?]
  | cons p rest ih =>
    intro h
    have hp : (p.1 == k) = false := by
      by_contra hc
      simp [List.any_cons, eq_true_of_ne_false hc] at h
    have hrest : rest.any (fun p => p.1 == k) = false := by
      simpa [List.any_cons, hp] using h
    simpa [pyDictGet, List.find?, hp] using ih hrest

/-- Setting a key yields a dictionary in which that key maps to the new
value. -/
theorem pyDictGet_set_self (d : List (String × PVal)) (k : String) (v : PVal) :
    pyDictGet (pyDictSet d k v) k = some v := by
  unfold pyDictSet
  by_cases h : d.any (fun p => p.1 == k) = true
  · rw [if_pos h]
    exact pyDictGet_map_set_self k v d h
  · rw [if_neg h]
    exact pyDictGet_append_single_self k v d (Bool.eq_false_iff.mpr h)

theorem pyDictGet_map_set_ne (k : String) (v : PVal) (q : String)
    (hq : ¬ q = k) :
    ∀ (d : List (String × PVal)),
      pyDictGet (d.map (fun p => if p.1 == k then (k, v) else p)) q =
        pyDictGet d q := by
  intro d
  induction d with
  | nil => rfl
  | cons p rest ih =>
    by_cases hp : (p.1 == k) = true
    · have hp1 : p.1 = k := by simpa using hp
      have hkq : (k == q) = false := by simpa using fun he => hq he.symm
      have hpq : (p.1 == q) = false := by rw [hp1]; exact hkq
      simp only [List.map_cons, if_pos hp]
      simp [pyDictGet, List.find?, hkq, hpq] at ih ⊢
      exact ih
    · simp only [List.map_cons, if_neg hp]
      by_cases hpq : (p.1 == q) = true
      · simp [pyDictGet, List.find?, hpq]
      · simp [pyDictGet, List.find?, Bool.eq_false_iff.mpr hpq] at ih ⊢
        exact ih

theorem pyDictGet_append_single_ne (k : String) (v : PVal) (q : String)
    (hq : ¬ q = k) :
    ∀ (d : List (String × PVal)),
      pyDictGet (d ++ [(k, v)]) q = pyDictGet d q := by
  intro d
  induction d with
  | nil =>
    have hkq : (k == q) = false := by simpa using fun he => hq he.symm
    simp [pyDictGet, List.find?, hkq]
  | cons p rest ih =>
    by_cases hpq : (p.1 == q) = true
    · simp [pyDictGet, List.find?, hpq]
    · simp only [List.cons_append]
      simp [pyDictGet, List.find?, Bool.eq_false_iff.mpr hpq] at ih ⊢
      exact ih

/-- Setting a key leaves every other key's binding unchanged. -/
theorem pyDictGet_set_ne (d : List (String × PVal)) (k : String) (v : PVal)
    (q : String) (hq : ¬ q = k) :
    pyDictGet (pyDictSet d k v) q = pyDictGet d q := by
  unfold pyDictSet
  by_cases h : d.any (fun p => p.1 == k) = true
  · rw [if_pos h]
    exact pyDictGet_map_set_ne k v q hq d
  · rw [if_neg h]
    exact pyDictGet_append_single_ne k v q hq d

/-- C10: `create_job` mutates the caller-supplied params dictionary in
place: with a truthy `run_id` the dictionary afterwards maps `"runid"` to
that value (whether or not `auto_start` is set), with `auto_start` it maps
`"phase"` to `"RUN"`; with `auto_start` off the `"phase"` binding is
untouched; and with a falsy `run_id` (such as `None` or the empty string)
the `"runid"` binding is untouched, so a falsy `run_id` is not sent. -/
theorem create_job_param_mutation (params : List (String × PVal))
    (rv : String) (hrv : ¬ rv = "") (f : Option String)
    (hf : truthyOptStr f = false) :
    pyDictGet (create_job_params params (some rv) true) "runid" =
      some (.s rv) ∧
    pyDictGet (create_job_params params (some rv) true) "phase" =
      some (.s "RUN") ∧
    pyDictGet (create_job_params params (some rv) false) "runid" =
      some (.s rv) ∧
    pyDictGet (create_job_params params (some rv) false) "phase" =
      pyDictGet params "phase" ∧
    pyDictGet (create_job_params params f true) "runid" =
      pyDictGet params "runid" ∧
    pyDictGet (create_job_params params f true) "phase" =
      some (.s "RUN") := by
  have htr : truthyOptStr (some rv) = true := by
    simp [truthyOptStr, hrv]
  have hne : ¬ ("runid" : String) = "phase" := by decide
  have hne' : ¬ ("phase" : String) = "runid" := by decide
  refine ⟨?_, ?_, ?_, ?_, ?_, ?_⟩
  · rw [show create_job_params params (some rv) true =
        pyDictSet (pyDictSet params "runid" (.s rv)) "phase" (.s "RUN") by
      simp [create_job_params, htr]]
    rw [pyDictGet_set_ne _ _ _ _ hne]
    exact pyDictGet_set_self _ _ _
  · rw [show create_job_params params (some rv) true =
        pyDictSet (pyDictSet params "runid" (.s rv)) "phase" (.s "RUN") by
      simp [create_job_params, htr]]
    exact pyDictGet_set_self _ _ _
  · rw [show create_job_params params (some rv) false =
        pyDictSet params "runid" (.s rv) by
      simp [create_job_params, htr]]
    exact pyDictGet_set_self _ _ _
  · rw [show create_job_params params (some rv) false =
        pyDictSet params "runid" (.s rv) by
      simp [create_job_params, htr]]
    exact pyDictGet_set_ne _ _ _ _ hne'
  · rw [show create_job_params params f true =
        pyDictSet params "phase" (.s "RUN") by
      simp [create_job_params, hf]]
    exact pyDictGet_set_ne _ _ _ _ hne
  · rw [show create_job_params params f true =
        pyDictSet params "phase" (.s "RUN") by
      simp [create_job_params, hf]]
    exact pyDictGet_set_self _ _ _

/-- Witness for C10 on the dictionary `[("id", ["img1"])]`, run id `r7`,
and the falsy run id `None`. -/
theorem create_job_param_mutation_witness :
    pyDictGet (create_job_params [("id", .l ["img1"])] (some "r7") true)
      "runid" = some (.s "r7") ∧
    pyDictGet (create_job_params [("id", .l ["img1"])] (some "r7") true)
      "phase" = some (.s "RUN") ∧
    pyDictGet (create_job_params [("id", .l ["img1"])] (some "r7") false)
      "runid" = some (.s "r7") ∧
    pyDictGet (create_job_params [("id", .l ["img1"])] (some "r7") false)
      "phase" = pyDictGet [("id", .l ["img1"])] "phase" ∧
    pyDictGet (create_job_params [("id", .l ["img1"])] none true)
      "runid" = pyDictGet [("id", .l ["img1"])] "runid" ∧
    pyDictGet (create_job_params [("id", .l ["img1"])] none true)
      "phase" = some (.s "RUN") :=
  create_job_param_mutation [("id", .l ["img1"])] "r7" (by decide) none rfl

end UWS
